import Mathlib

/-!
Verification of the leaderboard site generator
(`Project-1/readmit30/faculty/make_site.py`).

The script reads `leaderboard/leaderboard.csv` into a pandas DataFrame,
coerces the metric columns `auroc`, `auprc`, `brier` to numeric
(unparseable cells become NaN), sorts by those columns (AUROC descending,
AUPRC descending, Brier ascending, NaNs last), renders an HTML page
(status cells wrapped in ok/err spans, no escaping) and a PNG image of
the table (truncated to `max_rows` rows, numeric columns formatted to
four decimal places, NaN rendered as empty text in numeric columns).

The shallow embedding below models a DataFrame as a list of column names
plus rows of cells; a cell is a string, a rational number, or the missing
marker NaN.  Machine floats are modelled by `ℚ`; pandas library calls
(`to_numeric`, `sort_values`, `head`, `to_html`, `astype(str)`) are
modelled by executable Lean functions whose behaviour on the inputs the
claims exercise matches the library's documented behaviour.
-/

namespace MakeSite

/-- Model of a pandas cell: a string, a (finite) numeric value, or the
missing marker (NaN).  Floats are modelled by `ℚ`. -/
inductive Cell where
  | str (s : String)
  | num (q : ℚ)
  | missing
deriving DecidableEq, Repr

/-- Model of a DataFrame: column labels plus rows of cells, row-major.
A real DataFrame is rectangular; `Rect` states that explicitly. -/
structure Table where
  cols : List String
  rows : List (List Cell)
deriving DecidableEq, Repr

/-- Every row has exactly one cell per column (DataFrames are rectangular). -/
def Rect (t : Table) : Prop := ∀ r ∈ t.rows, r.length = t.cols.length

instance decRect (t : Table) : Decidable (Rect t) :=
  List.decidableBAll _ t.rows

/-- Value of a decimal digit character. -/
def digitVal (c : Char) : Option Nat :=
  if c.isDigit then some (c.toNat - ('0').toNat) else none

/-- Parse a nonempty string of decimal digits. -/
def parseNatDigits (cs : List Char) : Option Nat :=
  if cs.isEmpty then none
  else
    cs.foldl
      (fun acc c =>
        match acc, digitVal c with
        | some n, some d => some (n * 10 + d)
        | _, _ => none)
      (some 0)

/-- Parse an unsigned decimal literal: digits, optionally with a single
decimal point (`"5"`, `"5."`, `".5"`, `"1.25"`); the value is
`(intpart * 10 ^ |fracpart| + fracpart) / 10 ^ |fracpart|`. -/
def parseUnsigned (cs : List Char) : Option ℚ :=
  match cs.splitOn '.' with
  | [a] => (parseNatDigits a).map fun n => mkRat (Int.ofNat n) 1
  | [a, b] =>
    if a.isEmpty && b.isEmpty then none
    else
      match (if a.isEmpty then some 0 else parseNatDigits a),
            (if b.isEmpty then some 0 else parseNatDigits b) with
      | some i, some f => some (mkRat (Int.ofNat (i * 10 ^ b.length + f)) (10 ^ b.length))
      | _, _ => none
  | _ => none

/-- Strip leading and trailing whitespace from a character list. -/
def trimChars (cs : List Char) : List Char :=
  ((cs.dropWhile Char.isWhitespace).reverse.dropWhile Char.isWhitespace).reverse

/-- Model of `pd.to_numeric(·, errors="coerce")` on a single string:
an optionally signed decimal literal, surrounding whitespace allowed;
anything else coerces to the missing marker.  (Exotic spellings such as
exponent notation are not modelled; the claims under verification only
depend on parse failures becoming missing, never errors.) -/
def parseNum (s : String) : Option ℚ :=
  match trimChars s.data with
  | [] => none
  | '-' :: rest => (parseUnsigned rest).map fun q => -q
  | '+' :: rest => parseUnsigned rest
  | cs => parseUnsigned cs

/-- Model of `pd.to_numeric(·, errors="coerce")` on one cell: numbers pass
through, missing stays missing, strings parse or become missing. -/
def toNumericCell : Cell → Cell
  | Cell.num q => Cell.num q
  | Cell.missing => Cell.missing
  | Cell.str s =>
    match parseNum s with
    | some q => Cell.num q
    | none => Cell.missing

/-- Replace the cell at index `i` of a row (no-op when out of range). -/
def modifyIdx (f : Cell → Cell) : Nat → List Cell → List Cell
  | _, [] => []
  | 0, c :: r => f c :: r
  | n + 1, c :: r => c :: modifyIdx f n r

/-- Model of `df[col] = pd.to_numeric(df[col], errors="coerce")` guarded by
`if col in df.columns` (source lines 151-153). -/
def coerceCol (t : Table) (c : String) : Table :=
  if c ∈ t.cols then
    { t with rows := t.rows.map (modifyIdx toNumericCell (List.indexOf c t.cols)) }
  else t

/-- The metric columns, in sort-priority order (source line 151). -/
def metricCols : List String := ["auroc", "auprc", "brier"]

/-- Numeric coercion of whichever metric columns are present
(source lines 151-153). -/
def coerceMetrics (t : Table) : Table := metricCols.foldl coerceCol t

/-- `sort_cols = [c for c in ["auroc","auprc","brier"] if c in df.columns]`
(source line 155). -/
def sortCols (t : Table) : List String :=
  metricCols.filter fun c => decide (c ∈ t.cols)

/-- The sort keys paired with their `ascending` flags:
`sort_asc = [False, False, True][: len(sort_cols)]` (source line 156).
Note the flag list is truncated by count, not matched by column name,
exactly as in the source. -/
def keys (t : Table) : List (String × Bool) :=
  (sortCols t).zip [false, false, true]

/-- The numeric value a row carries in column `c` (`none` models NaN, and
also a residual string cell, which pandas would likewise not order before
numbers; after coercion the sort columns hold no string cells). -/
def keyVal (cols : List String) (c : String) (r : List Cell) : Option ℚ :=
  match r.getD (List.indexOf c cols) Cell.missing with
  | Cell.num q => some q
  | _ => none

/-- Strict "comes before" for one sort key, modelling pandas
`sort_values` with `na_position="last"` (the default): among numbers the
requested direction applies; NaN sorts after every number regardless of
direction; two NaNs tie. -/
def keyLt : Bool → Option ℚ → Option ℚ → Bool
  | true, some x, some y => decide (x < y)
  | false, some x, some y => decide (y < x)
  | _, some _, none => true
  | _, none, _ => false

/-- Lexicographic "may come before" over the sort keys, modelling the
multi-key comparison of `df.sort_values(by=sort_cols, ascending=sort_asc)`:
equal values on a key defer to the next key. -/
def rowLe (cols : List String) : List (String × Bool) → List Cell → List Cell → Bool
  | [], _, _ => true
  | (c, asc) :: ks, r1, r2 =>
    if keyVal cols c r1 = keyVal cols c r2 then rowLe cols ks r1 r2
    else keyLt asc (keyVal cols c r1) (keyVal cols c r2)

/-- Model of `df_sorted = df.sort_values(by=sort_cols, ascending=sort_asc)
if sort_cols else df` (source line 157).  Pandas' multi-key sort is stable;
`List.insertionSort` is the stable sort of the comparison. -/
def sortTable (t : Table) : Table :=
  if (sortCols t).isEmpty then t
  else
    { t with
      rows := List.insertionSort (fun r1 r2 => rowLe t.cols (keys t) r1 r2 = true) t.rows }

/-- The loader/sorter pipeline applied to a successfully read file:
numeric coercion of the metric columns followed by the sort
(source lines 148-157). -/
def processTable (t : Table) : Table := sortTable (coerceMetrics t)

/-- Model of Python `str()` on a cell value, as used by f-strings and by
`astype(str)`: strings are themselves, NaN prints as `"nan"`.  The exact
float spelling is a modelling stub (no verified claim depends on it). -/
def cellToPyStr : Cell → String
  | Cell.str s => s
  | Cell.missing => "nan"
  | Cell.num q =>
    if q.den = 1 then toString q.num ++ ".0"
    else toString q.num ++ "/" ++ toString q.den

/-- The success marker the HTML renderer substitutes for a literal `"OK"`
status (source line 161). -/
def okSpan : String := "<span class=\x27ok\x27>OK</span>"

/-- Opening text of the error marker span (source line 161). -/
def errSpanL : String := "<span class=\x27err\x27>"

/-- Closing tag of a marker span. -/
def spanR : String := "</span>"

/-- Model of the status-cell lambda of source line 161:
`"<span class='ok'>OK</span>" if s == "OK" else f"<span class='err'>{s}</span>"`.
The f-string interpolates the value verbatim, with no HTML escaping. -/
def statusMarkup (c : Cell) : Cell :=
  if c = Cell.str "OK" then Cell.str okSpan
  else Cell.str (errSpanL ++ cellToPyStr c ++ spanR)

/-- Model of the `df_html["status"] = df_html["status"].apply(...)` step
guarded by `if "status" in df_html.columns` (source lines 159-162):
only the status column is rewritten. -/
def htmlTransform (t : Table) : Table :=
  if "status" ∈ t.cols then
    { t with rows := t.rows.map (modifyIdx statusMarkup (List.indexOf "status" t.cols)) }
  else t

/-- Concatenation of a list of strings (Python `"".join`). -/
def strConcat : List String → String
  | [] => ""
  | s :: l => s ++ strConcat l

/-- One `<td>` of the rendered HTML table. -/
def tdCell (c : Cell) : String := "<td>" ++ cellToPyStr c ++ "</td>\n"

/-- One `<tr>` of the rendered HTML table body. -/
def trRow (r : List Cell) : String :=
  "<tr>\n" ++ strConcat (r.map tdCell) ++ "</tr>\n"

/-- One `<th>` of the rendered HTML table header. -/
def thCell (c : String) : String := "<th>" ++ c ++ "</th>\n"

/-- Opening tag pandas emits for `DataFrame.to_html`. -/
def tableOpen : String := "<table border=\"1\" class=\"dataframe\">\n"

/-- Model of `df_html.to_html(index=False, escape=False)` (source line 164):
a `<table>` with a header row of the column labels and one `<tr>` of
`<td>`s per row.  With `escape=False` every cell's text is inserted
verbatim — no character is HTML-escaped — which is the behaviour the
claims exercise; pandas' exact indentation is not reproduced. -/
def tableToHtml (t : Table) : String :=
  tableOpen
    ++ ("<thead>\n<tr>\n" ++ strConcat (t.cols.map thCell) ++ "</tr>\n</thead>\n")
    ++ "<tbody>\n"
    ++ strConcat (t.rows.map trRow)
    ++ "</tbody>\n</table>"

/-- The page template up to the `{table}` placeholder (source lines 6-27).
Literal braces are written as escapes. -/
def templatePre : String :=
  "<!doctype html>\n<html>\n<head>\n  <meta charset=\"utf-8\"/>\n  <meta name=\"viewport\" content=\"width=device-width, initial-scale=1\"/>\n  <title>Readmit30 Leaderboard</title>\n  <style>\n    body \x7b font-family: system-ui, -apple-system, Segoe UI, Roboto, sans-serif; margin: 2rem; \x7d\n    table \x7b border-collapse: collapse; width: 100%; \x7d\n    th, td \x7b border-bottom: 1px solid #ddd; padding: 0.5rem; text-align: left; \x7d\n    th \x7b position: sticky; top: 0; background: #fff; \x7d\n    .small \x7b color: #666; font-size: 0.9rem; \x7d\n    .ok \x7b color: #0a0; font-weight: 600; \x7d\n    .err \x7b color: #a00; font-weight: 600; \x7d\n  </style>\n</head>\n<body>\n  <h1>Readmit30 Leaderboard</h1>\n  <p class=\"small\">Primary metric: AUROC. Tie-breakers: AUPRC, then Brier (lower is better).</p>\n  "

/-- The page template after the `{table}` placeholder (source lines 27-30). -/
def templatePost : String :=
  "\n  <p class=\"small\">Updated from <code>leaderboard/leaderboard.csv</code>.</p>\n</body>\n</html>\n"

/-- Model of `TEMPLATE.replace("{table}", body)`: the template holds one
occurrence of the placeholder. -/
def renderPage (body : String) : String := templatePre ++ body ++ templatePost

/-- The HTML placeholder substituted when the input file is missing
(source line 140). -/
def noSubsHtml : String := "<p>No submissions yet.</p>"

/-- Outcome of one call of `render_leaderboard_image`.  `unavailable`
models the `except` path: the diagnostic
`"Skipping image render (matplotlib unavailable): ..."` is printed and the
function returns without writing a file.  `emptyState` models the
`df_sorted.empty` branch that writes the minimal "No submissions yet."
image.  `grid` models the written table image, carrying the cell texts,
the column labels and the title (visual styling — zebra stripes, status
colours, figure geometry — has no bearing on the claims and is not
carried). -/
inductive ImgRender where
  | unavailable
  | emptyState
  | grid (cells : List (List String)) (header : List String) (ti : String)
deriving DecidableEq, Repr

/-- The cell texts of a rendered grid (empty for the other outcomes). -/
def ImgRender.gridCells : ImgRender → List (List String)
  | ImgRender.grid cells _ _ => cells
  | _ => []

/-- The title of a rendered grid (empty for the other outcomes). -/
def ImgRender.imgTitle : ImgRender → String
  | ImgRender.grid _ _ ti => ti
  | _ => ""

/-- Model of `pd.api.types.is_numeric_dtype` for a column: a loaded
column has a numeric dtype exactly when every cell is a number or NaN
(`read_csv` stores a column as floats when all its entries parse, and
`to_numeric` always yields a float column). -/
def isNumericCol (cells : List Cell) : Bool :=
  cells.all fun c =>
    match c with
    | Cell.str _ => false
    | _ => true

/-- The cells of column `i` of a table. -/
def colCells (t : Table) (i : Nat) : List Cell :=
  t.rows.map fun r => r.getD i Cell.missing

/-- Column dtype flags.  Dtypes are fixed when the frame is loaded and
coerced, and `head()` preserves them, so they are computed from the full
(untruncated) sorted table. -/
def numFlags (t : Table) : List Bool :=
  (List.range t.cols.length).map fun i => isNumericCol (colCells t i)

/-- `round(q * 10000 + 1/2)` downwards, i.e. `q` rounded to 4 decimals,
scaled: `⌊(q*20000 + 1) / 2⌋` computed on numerator and denominator.
(Python's float formatting resolves exact halves by the binary value;
this model rounds halves up — no claim depends on the difference.) -/
def round4 (q : ℚ) : Int :=
  Int.fdiv (q.num * 20000 + (q.den : Int)) (2 * (q.den : Int))

/-- Model of `f"{x:.4f}"`: the value rounded to and printed with exactly
four digits after the decimal point. -/
def fmt4 (q : ℚ) : String :=
  let n : Int := round4 q
  let m : Nat := n.natAbs
  (if n < 0 then "-" else "")
    ++ toString (m / 10000)
    ++ "."
    ++ String.mk
        [Nat.digitChar (m / 1000 % 10), Nat.digitChar (m / 100 % 10),
         Nat.digitChar (m / 10 % 10), Nat.digitChar (m % 10)]

/-- Text of one grid cell of the image (source lines 63-68): on a
numeric-dtype column, NaN becomes empty text and a number is formatted to
4 decimals; every other column goes through `astype(str)`.  (The string
branch under a numeric flag is unreachable: a numeric dtype means the
column holds no string cell.) -/
def renderCell (numericType : Bool) : Cell → String
  | Cell.missing => if numericType then "" else cellToPyStr Cell.missing
  | Cell.num q => if numericType then fmt4 q else cellToPyStr (Cell.num q)
  | Cell.str s => if numericType then s else cellToPyStr (Cell.str s)

/-- Model of
`df_img = df_sorted.head(max_rows).copy() if max_rows and len(df_sorted) > max_rows else df_sorted.copy()`
(source line 60): `max_rows` equal to 0 is falsy, so no truncation then. -/
def imgRows (t : Table) (m : Nat) : List (List Cell) :=
  if decide (m ≠ 0) && decide (t.rows.length > m) then t.rows.take m else t.rows

/-- The formatted texts of one image row. -/
def fmtRow (t : Table) (r : List Cell) : List String :=
  (List.range t.cols.length).map fun j =>
    renderCell ((numFlags t).getD j false) (r.getD j Cell.missing)

/-- All formatted image cells (truncation, then per-column formatting). -/
def gridCellsOf (t : Table) (m : Nat) : List (List String) :=
  (imgRows t m).map (fmtRow t)

/-- The truncation note `" (Top {max_rows} of {len(df_sorted)})"`
(source line 125). -/
def topNote (m total : Nat) : String :=
  " (Top " ++ toString m ++ " of " ++ toString total ++ ")"

/-- The image title (source lines 123-125): the truncation note is added
under the same falsy-`max_rows` condition as the truncation itself. -/
def titleOf (t : Table) (m : Nat) : String :=
  "Readmit30 Leaderboard"
    ++ if decide (m ≠ 0) && decide (t.rows.length > m) then topNote m t.rows.length else ""

/-- Model of `render_leaderboard_image(df_sorted, out_png, max_rows, dpi)`
(source lines 36-132).  `mpl` states whether matplotlib can be imported;
`df_sorted.empty` is true when the frame has no rows or no columns. -/
def renderLeaderboardImage (mpl : Bool) (t : Table) (m : Nat) : ImgRender :=
  if mpl = false then ImgRender.unavailable
  else if t.rows.isEmpty || t.cols.isEmpty then ImgRender.emptyState
  else ImgRender.grid (gridCellsOf t m) t.cols (titleOf t m)

/-- The outputs of one run of `main()`: the body substituted for
`{table}`, the full HTML document written to `docs/index.html`, and the
image-render outcome. -/
structure MainOut where
  htmlBody : String
  htmlDoc : String
  img : ImgRender
deriving DecidableEq, Repr

/-- Model of `main()` (source lines 135-171).  `input` is `none` when
`leaderboard/leaderboard.csv` does not exist, otherwise the parsed frame.
The missing-file branch substitutes the placeholder and renders the image
of an empty frame; the normal branch coerces, sorts, applies the status
markup for HTML, and renders the image from the sorted (unmarked) frame. -/
def mainRun (mpl : Bool) (input : Option Table) (m : Nat) : MainOut :=
  match input with
  | none =>
    { htmlBody := noSubsHtml
      htmlDoc := renderPage noSubsHtml
      img := renderLeaderboardImage mpl { cols := [], rows := [] } m }
  | some df =>
    let dfSorted := processTable df
    let body := tableToHtml (htmlTransform dfSorted)
    { htmlBody := body
      htmlDoc := renderPage body
      img := renderLeaderboardImage mpl dfSorted m }

/-- `LEADERBOARD_IMAGE_ROWS` default (source line 33). -/
def defaultImgMaxRows : Nat := 25

/-- Spec-side order for a descending sort key on an earlier/later pair of
rows: the later value must not exceed the earlier, with a missing value
ranking below every number (missing sorts last when descending). -/
def descOk : Option ℚ → Option ℚ → Prop
  | _, none => True
  | none, some _ => False
  | some a, some b => b ≤ a

/-- Spec-side order for an ascending sort key on an earlier/later pair of
rows: the earlier value must not exceed the later, with a missing value
ranking above every number (missing sorts last when ascending). -/
def ascOk : Option ℚ → Option ℚ → Prop
  | _, none => True
  | none, some _ => False
  | some a, some b => a ≤ b

/-- Spec-side statement of the metric ordering between an earlier and a
later row of the sorted table: non-increasing AUROC; non-increasing AUPRC
among equal AUROC; non-decreasing Brier among equal (AUROC, AUPRC). -/
def metricOrderOk (cols : List String) (r1 r2 : List Cell) : Prop :=
  descOk (keyVal cols "auroc" r1) (keyVal cols "auroc" r2)
  ∧ (keyVal cols "auroc" r1 = keyVal cols "auroc" r2 →
      descOk (keyVal cols "auprc" r1) (keyVal cols "auprc" r2))
  ∧ (keyVal cols "auroc" r1 = keyVal cols "auroc" r2 ∧
      keyVal cols "auprc" r1 = keyVal cols "auprc" r2 →
      ascOk (keyVal cols "brier" r1) (keyVal cols "brier" r2))

/-- A cell that the numeric coercion has processed: a number or missing,
never a string and never an error. -/
def cellNumOrMissing : Cell → Prop
  | Cell.str _ => False
  | _ => True

/-- Spec-side missing-last property between an earlier and a later row of
the sorted table, per sort-key column: a row missing that key ranks after
every row carrying it, among rows that agree on all earlier sort keys
(for the primary key the comparison is unconditional). -/
def missingLastRel (cols : List String) (r1 r2 : List Cell) : Prop :=
  ("auroc" ∈ cols → keyVal cols "auroc" r1 = none → keyVal cols "auroc" r2 = none)
  ∧ ("auprc" ∈ cols →
      ("auroc" ∈ cols → keyVal cols "auroc" r1 = keyVal cols "auroc" r2) →
      keyVal cols "auprc" r1 = none → keyVal cols "auprc" r2 = none)
  ∧ ("brier" ∈ cols →
      ("auroc" ∈ cols → keyVal cols "auroc" r1 = keyVal cols "auroc" r2) →
      ("auprc" ∈ cols → keyVal cols "auprc" r1 = keyVal cols "auprc" r2) →
      keyVal cols "brier" r1 = none → keyVal cols "brier" r2 = none)

/-- The cell in row `i`, column `j` of a table. -/
def cellAt (t : Table) (i j : Nat) : Cell :=
  (t.rows.getD i []).getD j Cell.missing

/-- `small` occurs verbatim as a substring of `big`. -/
def strContains (big small : String) : Prop :=
  ∃ p q, big = p ++ small ++ q

/-- The standard HTML escaping of one character (what pandas would apply
with `escape=True`, and does not apply with `escape=False`). -/
def htmlEscapeChar (c : Char) : String :=
  if c = '<' then "&lt;"
  else if c = '>' then "&gt;"
  else if c = '&' then "&amp;"
  else String.mk [c]

/-- The standard HTML escaping of a string. -/
def htmlEscape (s : String) : String :=
  strConcat (s.data.map htmlEscapeChar)

/-! ### Properties of the one-key comparison -/

theorem keyLt_none_left (asc : Bool) (y : Option ℚ) : keyLt asc none y = false := by
  cases asc <;> cases y <;> rfl

theorem keyLt_some_none (asc : Bool) (a : ℚ) : keyLt asc (some a) none = true := by
  cases asc <;> rfl

theorem keyLt_asymm : ∀ (asc : Bool) (x y : Option ℚ),
    keyLt asc x y = true → keyLt asc y x = false
  | asc, none, y, h => by rw [keyLt_none_left] at h; exact absurd h (by simp)
  | asc, some a, none, _ => keyLt_none_left asc (some a)
  | true, some a, some b, h => by
    simp only [keyLt, decide_eq_true_eq] at h
    simp only [keyLt, decide_eq_false_iff_not]
    exact lt_asymm h
  | false, some a, some b, h => by
    simp only [keyLt, decide_eq_true_eq] at h
    simp only [keyLt, decide_eq_false_iff_not]
    exact lt_asymm h

theorem keyLt_trans : ∀ (asc : Bool) (x y z : Option ℚ),
    keyLt asc x y = true → keyLt asc y z = true → keyLt asc x z = true
  | asc, none, y, z, h1, _ => by rw [keyLt_none_left] at h1; exact absurd h1 (by simp)
  | asc, some a, none, z, _, h2 => by rw [keyLt_none_left] at h2; exact absurd h2 (by simp)
  | asc, some a, some b, none, _, _ => keyLt_some_none asc a
  | true, some a, some b, some c, h1, h2 => by
    simp only [keyLt, decide_eq_true_eq] at h1 h2 ⊢
    exact lt_trans h1 h2
  | false, some a, some b, some c, h1, h2 => by
    simp only [keyLt, decide_eq_true_eq] at h1 h2 ⊢
    exact lt_trans h2 h1

theorem keyLt_total_of_ne : ∀ (asc : Bool) (x y : Option ℚ), x ≠ y →
    keyLt asc x y = true ∨ keyLt asc y x = true
  | asc, none, none, h => absurd rfl h
  | asc, none, some b, _ => Or.inr (keyLt_some_none asc b)
  | asc, some a, none, _ => Or.inl (keyLt_some_none asc a)
  | true, some a, some b, h => by
    simp only [keyLt, decide_eq_true_eq]
    exact lt_or_gt_of_ne (fun hab : a = b => h (by rw [hab]))
  | false, some a, some b, h => by
    simp only [keyLt, decide_eq_true_eq]
    rcases lt_or_gt_of_ne (fun hab : a = b => h (by rw [hab])) with hl | hl
    · exact Or.inr hl
    · exact Or.inl hl

/-! ### Properties of the lexicographic row comparison -/

theorem rowLe_total (cols : List String) : ∀ (ks : List (String × Bool)) (r1 r2 : List Cell),
    rowLe cols ks r1 r2 = true ∨ rowLe cols ks r2 r1 = true
  | [], _, _ => Or.inl rfl
  | (c, asc) :: ks, r1, r2 => by
    by_cases hxy : keyVal cols c r1 = keyVal cols c r2
    · rcases rowLe_total cols ks r1 r2 with h | h
      · exact Or.inl (by simp only [rowLe, if_pos hxy]; exact h)
      · exact Or.inr (by simp only [rowLe, if_pos hxy.symm]; exact h)
    · rcases keyLt_total_of_ne asc _ _ hxy with h | h
      · exact Or.inl (by simp only [rowLe, if_neg hxy]; exact h)
      · exact Or.inr (by simp only [rowLe, if_neg (Ne.symm hxy)]; exact h)

theorem rowLe_trans (cols : List String) : ∀ (ks : List (String × Bool)) (r1 r2 r3 : List Cell),
    rowLe cols ks r1 r2 = true → rowLe cols ks r2 r3 = true → rowLe cols ks r1 r3 = true
  | [], _, _, _, _, _ => rfl
  | (c, asc) :: ks, r1, r2, r3, h1, h2 => by
    simp only [rowLe] at h1 h2 ⊢
    by_cases hxy : keyVal cols c r1 = keyVal cols c r2 <;>
      by_cases hyz : keyVal cols c r2 = keyVal cols c r3
    · rw [if_pos hxy] at h1
      rw [if_pos hyz] at h2
      rw [if_pos (hxy.trans hyz)]
      exact rowLe_trans cols ks r1 r2 r3 h1 h2
    · rw [if_pos hxy] at h1
      rw [if_neg hyz] at h2
      rw [if_neg (fun hxz => hyz (hxy ▸ hxz)), hxy]
      exact h2
    · rw [if_neg hxy] at h1
      rw [if_pos hyz] at h2
      rw [if_neg (fun hxz => hxy (hxz.trans hyz.symm)), ← hyz]
      exact h1
    · rw [if_neg hxy] at h1
      rw [if_neg hyz] at h2
      by_cases hxz : keyVal cols c r1 = keyVal cols c r3
      · rw [hxz] at h1
        have := keyLt_asymm asc _ _ h2
        rw [this] at h1
        exact absurd h1 (by simp)
      · rw [if_neg hxz]
        exact keyLt_trans asc _ _ _ h1 h2

/-! ### The sort step: sortedness, permutation, column preservation -/

theorem coerceCol_cols (t : Table) (c : String) : (coerceCol t c).cols = t.cols := by
  unfold coerceCol; split <;> rfl

theorem coerceMetrics_eq (t : Table) :
    coerceMetrics t = coerceCol (coerceCol (coerceCol t "auroc") "auprc") "brier" := rfl

theorem coerceMetrics_cols (t : Table) : (coerceMetrics t).cols = t.cols := by
  rw [coerceMetrics_eq, coerceCol_cols, coerceCol_cols, coerceCol_cols]

theorem sortTable_cols (t : Table) : (sortTable t).cols = t.cols := by
  unfold sortTable; split <;> rfl

theorem processTable_cols (t : Table) : (processTable t).cols = t.cols := by
  unfold processTable; rw [sortTable_cols, coerceMetrics_cols]

theorem sortTable_rows_sorted (t : Table) :
    List.Sorted (fun r1 r2 => rowLe t.cols (keys t) r1 r2 = true) (sortTable t).rows := by
  unfold sortTable
  split
  · rename_i h
    have hk : keys t = [] := by
      unfold keys; rw [List.isEmpty_iff.mp h]; rfl
    refine List.pairwise_iff_getElem.mpr fun i j hi hj hij => ?_
    rw [hk]; rfl
  · haveI : IsTotal (List Cell) (fun r1 r2 => rowLe t.cols (keys t) r1 r2 = true) :=
      ⟨fun a b => rowLe_total t.cols (keys t) a b⟩
    haveI : IsTrans (List Cell) (fun r1 r2 => rowLe t.cols (keys t) r1 r2 = true) :=
      ⟨fun a b c => rowLe_trans t.cols (keys t) a b c⟩
    exact List.sorted_insertionSort _ t.rows

theorem sortTable_rows_perm (t : Table) : (sortTable t).rows.Perm t.rows := by
  unfold sortTable
  split
  · exact List.Perm.refl _
  · exact List.perm_insertionSort _ t.rows

/-! ### Bridging the sort comparison to the spec-side metric order -/

theorem descOk_refl (x : Option ℚ) : descOk x x := by
  cases x <;> simp [descOk]

theorem ascOk_refl (x : Option ℚ) : ascOk x x := by
  cases x <;> simp [ascOk]

theorem descOk_of_keyLt : ∀ x y : Option ℚ, keyLt false x y = true → descOk x y
  | none, y, h => by rw [keyLt_none_left] at h; exact absurd h (by simp)
  | some a, none, _ => trivial
  | some a, some b, h => by
    simp only [keyLt, decide_eq_true_eq] at h
    exact le_of_lt h

theorem ascOk_of_keyLt : ∀ x y : Option ℚ, keyLt true x y = true → ascOk x y
  | none, y, h => by rw [keyLt_none_left] at h; exact absurd h (by simp)
  | some a, none, _ => trivial
  | some a, some b, h => by
    simp only [keyLt, decide_eq_true_eq] at h
    exact le_of_lt h

theorem rowLe_imp_metricOrderOk (cols : List String) (r1 r2 : List Cell)
    (h : rowLe cols [("auroc", false), ("auprc", false), ("brier", true)] r1 r2 = true) :
    metricOrderOk cols r1 r2 := by
  simp only [rowLe] at h
  by_cases ha : keyVal cols "auroc" r1 = keyVal cols "auroc" r2
  · rw [if_pos ha] at h
    refine ⟨by rw [ha]; exact descOk_refl _, fun _ => ?_, fun hpq => ?_⟩
    · by_cases hp : keyVal cols "auprc" r1 = keyVal cols "auprc" r2
      · rw [hp]; exact descOk_refl _
      · rw [if_neg hp] at h; exact descOk_of_keyLt _ _ h
    · rw [if_pos hpq.2] at h
      by_cases hb : keyVal cols "brier" r1 = keyVal cols "brier" r2
      · rw [hb]; exact ascOk_refl _
      · rw [if_neg hb] at h; exact ascOk_of_keyLt _ _ h
  · rw [if_neg ha] at h
    exact ⟨descOk_of_keyLt _ _ h, fun heq => absurd heq ha, fun hpq => absurd hpq.1 ha⟩

theorem sortCols_all (t : Table) (h1 : "auroc" ∈ t.cols) (h2 : "auprc" ∈ t.cols)
    (h3 : "brier" ∈ t.cols) : sortCols t = ["auroc", "auprc", "brier"] := by
  simp [sortCols, metricCols, h1, h2, h3]

/-- Claim C1: for every input table in which the columns `auroc`, `auprc`
and `brier` are all present, the sorted table has rows non-increasing in
`auroc`; among rows with equal `auroc`, non-increasing in `auprc`; and
among rows with equal `(auroc, auprc)`, non-decreasing in `brier`
(missing values ranking last within each key). -/
theorem sorted_output_metric_order (t : Table) (h1 : "auroc" ∈ t.cols)
    (h2 : "auprc" ∈ t.cols) (h3 : "brier" ∈ t.cols) :
    List.Pairwise (metricOrderOk t.cols) (processTable t).rows := by
  have hc := coerceMetrics_cols t
  have hs := sortTable_rows_sorted (coerceMetrics t)
  have hk : keys (coerceMetrics t) = [("auroc", false), ("auprc", false), ("brier", true)] := by
    unfold keys
    rw [show sortCols (coerceMetrics t) = ["auroc", "auprc", "brier"] by
      unfold sortCols; rw [hc]; simp [metricCols, h1, h2, h3]]
    rfl
  rw [hc, hk] at hs
  exact List.Pairwise.imp (fun h => rowLe_imp_metricOrderOk t.cols _ _ h) hs

/-- Witness for C1 at a three-row table with a tie on `(auroc, auprc)`. -/
theorem sorted_output_metric_order_witness :
    List.Pairwise (metricOrderOk ["auroc", "auprc", "brier"])
      (processTable
        { cols := ["auroc", "auprc", "brier"],
          rows := [[Cell.num (mkRat 8 10), Cell.str "x", Cell.num (mkRat 3 10)],
                   [Cell.num (mkRat 9 10), Cell.num (mkRat 1 2), Cell.num (mkRat 2 10)],
                   [Cell.num (mkRat 9 10), Cell.num (mkRat 1 2), Cell.num (mkRat 1 10)]] }).rows :=
  sorted_output_metric_order
    { cols := ["auroc", "auprc", "brier"],
      rows := [[Cell.num (mkRat 8 10), Cell.str "x", Cell.num (mkRat 3 10)],
               [Cell.num (mkRat 9 10), Cell.num (mkRat 1 2), Cell.num (mkRat 2 10)],
               [Cell.num (mkRat 9 10), Cell.num (mkRat 1 2), Cell.num (mkRat 1 10)]] }
    (by decide) (by decide) (by decide)

/-- Claim C7: if none of the three metric columns exists, the sort step is
the identity — the output table equals the input table, and no error is
raised. -/
theorem no_metric_columns_identity (t : Table) (h1 : "auroc" ∉ t.cols)
    (h2 : "auprc" ∉ t.cols) (h3 : "brier" ∉ t.cols) : processTable t = t := by
  have e1 : coerceCol t "auroc" = t := by unfold coerceCol; rw [if_neg h1]
  have e2 : coerceCol t "auprc" = t := by unfold coerceCol; rw [if_neg h2]
  have e3 : coerceCol t "brier" = t := by unfold coerceCol; rw [if_neg h3]
  have hcm : coerceMetrics t = t := by rw [coerceMetrics_eq, e1, e2, e3]
  unfold processTable
  rw [hcm]
  unfold sortTable
  have hsc : sortCols t = [] := by simp [sortCols, metricCols, h1, h2, h3]
  rw [hsc]
  rfl

/-! ### Numeric coercion: cells of coerced columns are numbers or missing -/

theorem modifyIdx_getD (f : Cell → Cell) :
    ∀ (k j : Nat) (r : List Cell),
      (modifyIdx f k r).getD j Cell.missing =
        if j = k ∧ j < r.length then f (r.getD j Cell.missing)
        else r.getD j Cell.missing
  | k, j, [] => by simp [modifyIdx]
  | 0, 0, c :: r => by simp [modifyIdx]
  | 0, j + 1, c :: r => by simp [modifyIdx]
  | k + 1, 0, c :: r => by simp [modifyIdx]
  | k + 1, j + 1, c :: r => by
    simpa [modifyIdx, Nat.succ_lt_succ_iff] using modifyIdx_getD f k j r

theorem modifyIdx_length (f : Cell → Cell) :
    ∀ (k : Nat) (r : List Cell), (modifyIdx f k r).length = r.length
  | _, [] => by simp [modifyIdx]
  | 0, c :: r => rfl
  | k + 1, c :: r => by simp [modifyIdx, modifyIdx_length f k r]

theorem cellNumOrMissing_toNumericCell (c : Cell) : cellNumOrMissing (toNumericCell c) := by
  cases c with
  | num q => trivial
  | missing => trivial
  | str s =>
    rcases hp : parseNum s with _ | q <;> simp [toNumericCell, hp, cellNumOrMissing]

theorem modifyIdx_pres_numOrMissing (k j : Nat) (r : List Cell)
    (h : cellNumOrMissing (r.getD j Cell.missing)) :
    cellNumOrMissing ((modifyIdx toNumericCell k r).getD j Cell.missing) := by
  rw [modifyIdx_getD]
  split
  · exact cellNumOrMissing_toNumericCell _
  · exact h

theorem coerceCol_numOrMissing (t : Table) (c : String) (hm : c ∈ t.cols) :
    ∀ r ∈ (coerceCol t c).rows,
      cellNumOrMissing (r.getD (List.indexOf c t.cols) Cell.missing) := by
  unfold coerceCol
  rw [if_pos hm]
  intro r hr
  simp only [List.mem_map] at hr
  obtain ⟨r0, _, rfl⟩ := hr
  rw [modifyIdx_getD]
  split
  · exact cellNumOrMissing_toNumericCell _
  · rename_i hcond
    have hge : ¬ List.indexOf c t.cols < r0.length := fun hlt => hcond ⟨rfl, hlt⟩
    rw [List.getD_eq_default]
    · trivial
    · omega

theorem coerceCol_pres_numOrMissing (t : Table) (c' : String) (k : Nat)
    (h : ∀ r ∈ t.rows, cellNumOrMissing (r.getD k Cell.missing)) :
    ∀ r ∈ (coerceCol t c').rows, cellNumOrMissing (r.getD k Cell.missing) := by
  unfold coerceCol
  split
  · intro r hr
    simp only [List.mem_map] at hr
    obtain ⟨r0, hr0, rfl⟩ := hr
    exact modifyIdx_pres_numOrMissing _ _ _ (h r0 hr0)
  · exact h

theorem coerceMetrics_numOrMissing (t : Table) (c : String) (hc : c ∈ metricCols)
    (hm : c ∈ t.cols) :
    ∀ r ∈ (coerceMetrics t).rows,
      cellNumOrMissing (r.getD (List.indexOf c t.cols) Cell.missing) := by
  have hc1 : (coerceCol t "auroc").cols = t.cols := coerceCol_cols t "auroc"
  have hc2 : (coerceCol (coerceCol t "auroc") "auprc").cols = t.cols := by
    rw [coerceCol_cols, hc1]
  rw [coerceMetrics_eq]
  simp only [metricCols, List.mem_cons, List.not_mem_nil, or_false] at hc
  rcases hc with rfl | rfl | rfl
  · refine coerceCol_pres_numOrMissing _ _ _ (coerceCol_pres_numOrMissing _ _ _ ?_)
    exact coerceCol_numOrMissing t "auroc" hm
  · refine coerceCol_pres_numOrMissing _ _ _ ?_
    have := coerceCol_numOrMissing (coerceCol t "auroc") "auprc" (by rw [hc1]; exact hm)
    rw [hc1] at this
    exact this
  · have := coerceCol_numOrMissing (coerceCol (coerceCol t "auroc") "auprc") "brier"
      (by rw [hc2]; exact hm)
    rw [hc2] at this
    exact this

theorem processTable_numOrMissing (t : Table) (c : String) (hc : c ∈ metricCols)
    (hm : c ∈ t.cols) :
    ∀ r ∈ (processTable t).rows,
      cellNumOrMissing (r.getD (List.indexOf c t.cols) Cell.missing) := by
  intro r hr
  exact coerceMetrics_numOrMissing t c hc hm r
    ((sortTable_rows_perm (coerceMetrics t)).mem_iff.mp hr)

/-! ### Missing values rank last within their key, among equal earlier keys -/

theorem rowLe_missing_after (cols : List String) :
    ∀ (pre post : List (String × Bool)) (c : String) (asc : Bool) (r1 r2 : List Cell),
      rowLe cols (pre ++ (c, asc) :: post) r1 r2 = true →
      (∀ p ∈ pre, keyVal cols p.1 r1 = keyVal cols p.1 r2) →
      keyVal cols c r1 = none → keyVal cols c r2 = none
  | [], post, c, asc, r1, r2, h, _, hnone => by
    simp only [List.nil_append, rowLe] at h
    by_cases hxy : keyVal cols c r1 = keyVal cols c r2
    · rw [← hxy, hnone]
    · rw [if_neg hxy, hnone, keyLt_none_left] at h
      exact absurd h (by simp)
  | (c0, a0) :: pre, post, c, asc, r1, r2, h, hagree, hnone => by
    simp only [List.cons_append, rowLe] at h
    rw [if_pos (hagree (c0, a0) (List.mem_cons_self _ _))] at h
    exact rowLe_missing_after cols pre post c asc r1 r2 h
      (fun p hp => hagree p (List.mem_cons_of_mem _ hp)) hnone

theorem processTable_missingLast (t : Table) :
    List.Pairwise (missingLastRel t.cols) (processTable t).rows := by
  have hc := coerceMetrics_cols t
  have hs := sortTable_rows_sorted (coerceMetrics t)
  rw [hc] at hs
  have hkeys : keys (coerceMetrics t) =
      (metricCols.filter fun c => decide (c ∈ t.cols)).zip [false, false, true] := by
    unfold keys sortCols
    rw [hc]
  refine List.Pairwise.imp ?_ hs
  intro r1 r2 hle
  rw [hkeys] at hle
  refine ⟨fun hA hnone => ?_, fun hP hAeq hnone => ?_, fun hB hAeq hPeq hnone => ?_⟩
  · rw [show (metricCols.filter fun c => decide (c ∈ t.cols)) =
        "auroc" :: (["auprc", "brier"].filter fun c => decide (c ∈ t.cols)) by
      simp [metricCols, hA], List.zip_cons_cons] at hle
    exact rowLe_missing_after t.cols [] _ "auroc" false r1 r2 hle
      (fun p hp => absurd hp (List.not_mem_nil p)) hnone
  · by_cases hA : "auroc" ∈ t.cols
    · rw [show (metricCols.filter fun c => decide (c ∈ t.cols)) =
          "auroc" :: "auprc" :: (["brier"].filter fun c => decide (c ∈ t.cols)) by
        simp [metricCols, hA, hP], List.zip_cons_cons, List.zip_cons_cons] at hle
      refine rowLe_missing_after t.cols [("auroc", false)] _ "auprc" false r1 r2 hle ?_ hnone
      intro p hp
      rcases List.mem_singleton.mp hp with rfl
      exact hAeq hA
    · rw [show (metricCols.filter fun c => decide (c ∈ t.cols)) =
          "auprc" :: (["brier"].filter fun c => decide (c ∈ t.cols)) by
        simp [metricCols, hA, hP], List.zip_cons_cons] at hle
      exact rowLe_missing_after t.cols [] _ "auprc" false r1 r2 hle
        (fun p hp => absurd hp (List.not_mem_nil p)) hnone
  · by_cases hA : "auroc" ∈ t.cols <;> by_cases hP : "auprc" ∈ t.cols
    · rw [show (metricCols.filter fun c => decide (c ∈ t.cols)) =
          ["auroc", "auprc", "brier"] by simp [metricCols, hA, hP, hB],
        List.zip_cons_cons, List.zip_cons_cons, List.zip_cons_cons] at hle
      refine rowLe_missing_after t.cols [("auroc", false), ("auprc", false)] _ "brier" true
        r1 r2 hle ?_ hnone
      intro p hp
      rcases List.mem_cons.mp hp with rfl | hp2
      · exact hAeq hA
      · rcases List.mem_singleton.mp hp2 with rfl
        exact hPeq hP
    · rw [show (metricCols.filter fun c => decide (c ∈ t.cols)) =
          ["auroc", "brier"] by simp [metricCols, hA, hP, hB],
        List.zip_cons_cons, List.zip_cons_cons] at hle
      refine rowLe_missing_after t.cols [("auroc", false)] _ "brier" false r1 r2 hle ?_ hnone
      intro p hp
      rcases List.mem_singleton.mp hp with rfl
      exact hAeq hA
    · rw [show (metricCols.filter fun c => decide (c ∈ t.cols)) =
          ["auprc", "brier"] by simp [metricCols, hA, hP, hB],
        List.zip_cons_cons, List.zip_cons_cons] at hle
      refine rowLe_missing_after t.cols [("auprc", false)] _ "brier" false r1 r2 hle ?_ hnone
      intro p hp
      rcases List.mem_singleton.mp hp with rfl
      exact hPeq hP
    · rw [show (metricCols.filter fun c => decide (c ∈ t.cols)) =
          ["brier"] by simp [metricCols, hA, hP, hB], List.zip_cons_cons] at hle
      exact rowLe_missing_after t.cols [] _ "brier" false r1 r2 hle
        (fun p hp => absurd hp (List.not_mem_nil p)) hnone

/-! ### The empty-table paths of the two renderers -/

theorem coerceCol_rows_nil (t : Table) (c : String) (h : t.rows = []) :
    (coerceCol t c).rows = [] := by
  unfold coerceCol
  split <;> simp [h]

theorem coerceMetrics_rows_nil (t : Table) (h : t.rows = []) :
    (coerceMetrics t).rows = [] := by
  rw [coerceMetrics_eq]
  exact coerceCol_rows_nil _ _ (coerceCol_rows_nil _ _ (coerceCol_rows_nil _ _ h))

theorem sortTable_rows_nil (t : Table) (h : t.rows = []) : (sortTable t).rows = [] := by
  unfold sortTable
  split
  · exact h
  · simp [h, List.insertionSort]

theorem processTable_rows_nil (t : Table) (h : t.rows = []) : (processTable t).rows = [] :=
  sortTable_rows_nil _ (coerceMetrics_rows_nil t h)

theorem renderLeaderboardImage_empty (t : Table) (h : t.rows = []) (m : Nat) :
    renderLeaderboardImage true t m = ImgRender.emptyState := by
  simp [renderLeaderboardImage, h]

theorem tableToHtml_ne_noSubs (t : Table) : tableToHtml t ≠ noSubsHtml := by
  intro h
  rw [tableToHtml] at h
  simp only [String.append_assoc] at h
  have hd := congrArg (fun s => s.data[1]?) h
  simp only [String.data_append] at hd
  rw [List.getElem?_append_left (by decide)] at hd
  exact absurd hd (by decide)

/-- Counterexample to C2 as stated: a file that exists but holds zero data
rows drives the image renderer through the same empty-state
("no submissions") rendering path as a missing file, because the renderer
tests `df_sorted.empty`, not file existence. -/
theorem headers_only_empty_image_path :
    (mainRun true (some { cols := ["auroc"], rows := [] }) 25).img = ImgRender.emptyState
    ∧ (mainRun true none 25).img = ImgRender.emptyState :=
  ⟨by decide, by decide⟩

/-- Claim C2 (amended): for a file that exists but holds zero data rows,
`main` takes the normal sort/render path — the HTML output is the rendered
(empty) table, never the "no submissions" placeholder, which appears only
for a missing file; the image renderer, however, renders its empty-state
image for a present-but-empty table exactly as for a missing file. -/
theorem headers_only_normal_html_path (t : Table) (h : t.rows = []) (mpl : Bool) (m : Nat) :
    (mainRun mpl (some t) m).htmlBody = tableToHtml (htmlTransform (processTable t))
    ∧ (mainRun mpl (some t) m).htmlBody ≠ noSubsHtml
    ∧ (mainRun mpl none m).htmlBody = noSubsHtml
    ∧ (mainRun true (some t) m).img = ImgRender.emptyState := by
  refine ⟨rfl, tableToHtml_ne_noSubs _, rfl, ?_⟩
  show renderLeaderboardImage true (processTable t) m = ImgRender.emptyState
  exact renderLeaderboardImage_empty _ (processTable_rows_nil t h) m

/-- Witness for C2 (amended) at a headers-only table. -/
theorem headers_only_normal_html_path_witness :
    (mainRun true (some { cols := ["auroc"], rows := [] }) 25).htmlBody
        = tableToHtml (htmlTransform (processTable { cols := ["auroc"], rows := [] }))
    ∧ (mainRun true (some { cols := ["auroc"], rows := [] }) 25).htmlBody ≠ noSubsHtml
    ∧ (mainRun true none 25).htmlBody = noSubsHtml
    ∧ (mainRun true (some { cols := ["auroc"], rows := [] }) 25).img = ImgRender.emptyState :=
  headers_only_normal_html_path { cols := ["auroc"], rows := [] } rfl true 25

/-! ### The HTML status-markup transformation -/

theorem htmlTransform_cols (t : Table) : (htmlTransform t).cols = t.cols := by
  unfold htmlTransform
  split <;> rfl

theorem htmlTransform_rows_length (t : Table) :
    (htmlTransform t).rows.length = t.rows.length := by
  unfold htmlTransform
  split <;> simp

theorem htmlTransform_cellAt (t : Table) (hs : "status" ∈ t.cols) (hrect : Rect t)
    (i j : Nat) (hi : i < t.rows.length) (hj : j < t.cols.length) :
    cellAt (htmlTransform t) i j =
      if j = List.indexOf "status" t.cols then statusMarkup (cellAt t i j)
      else cellAt t i j := by
  unfold htmlTransform
  rw [if_pos hs]
  show (List.getD (t.rows.map (modifyIdx statusMarkup (List.indexOf "status" t.cols))) i []).getD
      j Cell.missing = _
  have hi' : i < (t.rows.map (modifyIdx statusMarkup (List.indexOf "status" t.cols))).length := by
    simpa using hi
  rw [List.getD_eq_getElem _ _ hi', List.getElem_map, modifyIdx_getD]
  have hrlen : (t.rows[i]).length = t.cols.length := hrect _ (List.getElem_mem hi)
  rw [cellAt, List.getD_eq_getElem t.rows [] hi]
  by_cases hjk : j = List.indexOf "status" t.cols
  · rw [if_pos ⟨hjk, by rw [hrlen]; exact hj⟩, if_pos hjk]
  · rw [if_neg fun hcon => hjk hcon.1, if_neg hjk]

/-- Claim C5: for every table with a `status` column, the HTML renderer
replaces, in the status column only, every cell equal to the literal
`"OK"` by the success-class marker with text `"OK"`, and every other cell
by the error-class marker whose text is that cell's rendered value; every
cell outside the status column passes through unchanged. -/
theorem html_status_markup (t : Table) (hs : "status" ∈ t.cols) (hrect : Rect t)
    (i j : Nat) (hi : i < t.rows.length) (hj : j < t.cols.length) :
    (htmlTransform t).cols = t.cols
    ∧ cellAt (htmlTransform t) i j =
        (if j = List.indexOf "status" t.cols then
          (if cellAt t i j = Cell.str "OK" then Cell.str okSpan
           else Cell.str (errSpanL ++ cellToPyStr (cellAt t i j) ++ spanR))
         else cellAt t i j) := by
  refine ⟨htmlTransform_cols t, ?_⟩
  rw [htmlTransform_cellAt t hs hrect i j hi hj]
  rfl

/-- Witness for C5 at a two-row table: the `"OK"` status cell, the
`"FAIL"` status cell, and a non-status cell. -/
theorem html_status_markup_witness :
    (htmlTransform
        { cols := ["model", "status"],
          rows := [[Cell.str "m1", Cell.str "OK"], [Cell.str "m2", Cell.str "FAIL"]] }).cols
      = ["model", "status"]
    ∧ cellAt
        (htmlTransform
          { cols := ["model", "status"],
            rows := [[Cell.str "m1", Cell.str "OK"], [Cell.str "m2", Cell.str "FAIL"]] }) 1 1 =
        (if 1 = List.indexOf "status" ["model", "status"] then
          (if cellAt
              { cols := ["model", "status"],
                rows := [[Cell.str "m1", Cell.str "OK"], [Cell.str "m2", Cell.str "FAIL"]] } 1 1
              = Cell.str "OK" then Cell.str okSpan
           else Cell.str (errSpanL ++ cellToPyStr (cellAt
              { cols := ["model", "status"],
                rows := [[Cell.str "m1", Cell.str "OK"], [Cell.str "m2", Cell.str "FAIL"]] } 1 1)
              ++ spanR))
         else cellAt
            { cols := ["model", "status"],
              rows := [[Cell.str "m1", Cell.str "OK"], [Cell.str "m2", Cell.str "FAIL"]] } 1 1) :=
  html_status_markup
    { cols := ["model", "status"],
      rows := [[Cell.str "m1", Cell.str "OK"], [Cell.str "m2", Cell.str "FAIL"]] }
    (by decide) (by decide) 1 1 (by decide) (by decide)

/-! ### Verbatim substring machinery for the unescaped-HTML claim -/

theorem strConcat_append (a b : List String) :
    strConcat (a ++ b) = strConcat a ++ strConcat b := by
  induction a with
  | nil => simp [strConcat, String.empty_append]
  | cons s l ih => simp [strConcat, ih, String.append_assoc]

theorem strContains_expand (a b : String) {big x : String} (h : strContains big x) :
    strContains (a ++ big ++ b) x := by
  obtain ⟨p, q, rfl⟩ := h
  exact ⟨a ++ p, q ++ b, by simp [String.append_assoc]⟩

theorem strContains_trans {a b c : String} (h1 : strContains a b) (h2 : strContains b c) :
    strContains a c := by
  obtain ⟨p, q, rfl⟩ := h1
  obtain ⟨p2, q2, rfl⟩ := h2
  exact ⟨p ++ p2, q2 ++ q, by simp [String.append_assoc]⟩

theorem strContains_strConcat {α : Type} (f : α → String) {x : α} {l : List α} (hx : x ∈ l) :
    strContains (strConcat (l.map f)) (f x) := by
  obtain ⟨u, v, rfl⟩ := List.append_of_mem hx
  rw [List.map_append, strConcat_append]
  exact ⟨strConcat (u.map f), strConcat (v.map f), by simp [strConcat, String.append_assoc]⟩

/-- Claim C9: for every status cell holding a value other than the
literal `"OK"`, the rendered HTML document contains the error-class span
with that value's text inserted verbatim — any markup characters in the
value reach the output raw and unescaped (`to_html` is called with
`escape=False`), and the raw value itself is a substring of the page. -/
theorem html_status_unescaped (t : Table) (hs : "status" ∈ t.cols) (hrect : Rect t)
    (i : Nat) (hi : i < t.rows.length) (s : String)
    (hcell : cellAt t i (List.indexOf "status" t.cols) = Cell.str s) (hne : s ≠ "OK") :
    strContains (renderPage (tableToHtml (htmlTransform t))) (errSpanL ++ s ++ spanR)
    ∧ strContains (renderPage (tableToHtml (htmlTransform t))) s := by
  have hkc : List.indexOf "status" t.cols < t.cols.length := List.indexOf_lt_length.mpr hs
  have hcellT : cellAt (htmlTransform t) i (List.indexOf "status" t.cols)
      = Cell.str (errSpanL ++ s ++ spanR) := by
    rw [htmlTransform_cellAt t hs hrect i _ hi hkc, if_pos rfl, hcell]
    unfold statusMarkup
    rw [if_neg (by simp [hne])]
    rfl
  have hi' : i < (htmlTransform t).rows.length := by
    rw [htmlTransform_rows_length]; exact hi
  have hrowmem : (htmlTransform t).rows[i] ∈ (htmlTransform t).rows := List.getElem_mem hi'
  have hrows_eq : (htmlTransform t).rows
      = t.rows.map (modifyIdx statusMarkup (List.indexOf "status" t.cols)) := by
    unfold htmlTransform; rw [if_pos hs]
  have hrow_eq : (htmlTransform t).rows[i]
      = modifyIdx statusMarkup (List.indexOf "status" t.cols) (t.rows[i]) := by
    have h1 : (htmlTransform t).rows[i]? = some ((htmlTransform t).rows[i]) :=
      List.getElem?_eq_getElem hi'
    have h2 : (htmlTransform t).rows[i]?
        = some (modifyIdx statusMarkup (List.indexOf "status" t.cols) (t.rows[i])) := by
      rw [hrows_eq, List.getElem?_map, List.getElem?_eq_getElem hi]
      rfl
    exact Option.some_injective _ (h1.symm.trans h2)
  have hrowlen : ((htmlTransform t).rows[i]).length = t.cols.length := by
    rw [hrow_eq, modifyIdx_length]
    exact hrect _ (List.getElem_mem hi)
  have hcellmem : ((htmlTransform t).rows[i]).getD (List.indexOf "status" t.cols) Cell.missing
      ∈ (htmlTransform t).rows[i] := by
    rw [List.getD_eq_getElem _ _ (by rw [hrowlen]; exact hkc)]
    exact List.getElem_mem _
  have hcelleq : ((htmlTransform t).rows[i]).getD (List.indexOf "status" t.cols) Cell.missing
      = Cell.str (errSpanL ++ s ++ spanR) := by
    rw [← hcellT, cellAt, List.getD_eq_getElem (htmlTransform t).rows [] hi']
  rw [hcelleq] at hcellmem
  have h_td : strContains (tdCell (Cell.str (errSpanL ++ s ++ spanR))) (errSpanL ++ s ++ spanR) :=
    ⟨"<td>", "</td>\n", rfl⟩
  have h_tr : strContains (trRow ((htmlTransform t).rows[i]))
      (tdCell (Cell.str (errSpanL ++ s ++ spanR))) :=
    strContains_expand "<tr>\n" "</tr>\n" (strContains_strConcat tdCell hcellmem)
  have h_tbl : strContains (tableToHtml (htmlTransform t)) (trRow ((htmlTransform t).rows[i])) :=
    strContains_expand _ "</tbody>\n</table>" (strContains_strConcat trRow hrowmem)
  have h1 : strContains (tableToHtml (htmlTransform t)) (errSpanL ++ s ++ spanR) :=
    strContains_trans (strContains_trans h_tbl h_tr) h_td
  refine ⟨strContains_expand templatePre templatePost h1, ?_⟩
  exact strContains_trans (strContains_expand templatePre templatePost h1) ⟨errSpanL, spanR, rfl⟩

/-- Witness for C9 at a status value carrying raw HTML markup. -/
theorem html_status_unescaped_witness :
    strContains
      (renderPage (tableToHtml (htmlTransform
        { cols := ["status"], rows := [[Cell.str "<b>FAIL</b>"]] })))
      (errSpanL ++ "<b>FAIL</b>" ++ spanR)
    ∧ strContains
        (renderPage (tableToHtml (htmlTransform
          { cols := ["status"], rows := [[Cell.str "<b>FAIL</b>"]] })))
        "<b>FAIL</b>" :=
  html_status_unescaped { cols := ["status"], rows := [[Cell.str "<b>FAIL</b>"]] }
    (by decide) (by decide) 0 (by decide) "<b>FAIL</b>" (by decide) (by decide)

/-- Claim C4: when the rendering library cannot be loaded, the image
renderer emits its diagnostic and returns without writing any image file
(`ImgRender.unavailable`), no exception escapes (the model is a total
function), and the HTML outputs are exactly those of a run with the
library available; with the library available this failure outcome never
occurs — it is the renderer's only designed failure path. -/
theorem matplotlib_unavailable_degradation (df : Table) (input : Option Table) (m : Nat) :
    renderLeaderboardImage false df m = ImgRender.unavailable
    ∧ (mainRun false input m).htmlBody = (mainRun true input m).htmlBody
    ∧ (mainRun false input m).htmlDoc = (mainRun true input m).htmlDoc
    ∧ renderLeaderboardImage true df m ≠ ImgRender.unavailable := by
  refine ⟨rfl, ?_, ?_, ?_⟩
  · cases input <;> rfl
  · cases input <;> rfl
  · unfold renderLeaderboardImage
    rw [if_neg (by simp)]
    split <;> simp

/-- Counterexample to C6 as stated: in the sorted table below, the first
row is missing `auprc` yet ranks before the second row, which carries an
`auprc` value — a missing value in a non-primary sort-key column does not
rank after all rows that carry that column globally, only among rows with
equal earlier keys. -/
theorem missing_metric_not_globally_last :
    ¬ ((processTable
        { cols := ["auroc", "auprc"],
          rows := [[Cell.num (mkRat 9 10), Cell.missing],
                   [Cell.num (mkRat 8 10), Cell.num (mkRat 1 2)]] }).rows.Pairwise
      fun r1 r2 => keyVal ["auroc", "auprc"] "auprc" r1 = none →
        keyVal ["auroc", "auprc"] "auprc" r2 = none) := by
  decide

/-- Claim C6 (amended): for every existing input file and each metric
column present, the loader coerces every cell of that column to a number
or the missing marker, with unparseable strings becoming missing rather
than errors; and in the sorted table, for each sort-key column, every row
missing that column's value ranks after all rows carrying one among rows
that agree on all earlier sort keys (for the primary key, globally). -/
theorem numeric_coercion_and_missing_last (t : Table) (c : String)
    (hc : c ∈ metricCols) (hm : c ∈ t.cols) :
    (∀ r ∈ (processTable t).rows,
      cellNumOrMissing (r.getD (List.indexOf c t.cols) Cell.missing))
    ∧ (∀ s, parseNum s = none → toNumericCell (Cell.str s) = Cell.missing)
    ∧ List.Pairwise (missingLastRel t.cols) (processTable t).rows :=
  ⟨processTable_numOrMissing t c hc hm,
   fun s hs => by simp [toNumericCell, hs],
   processTable_missingLast t⟩

/-- Witness for C6 (amended) at a table whose `auroc` column holds one
parseable and one unparseable string. -/
theorem numeric_coercion_and_missing_last_witness :
    (∀ r ∈ (processTable
        { cols := ["auroc", "status"],
          rows := [[Cell.str "0.95", Cell.str "OK"],
                   [Cell.str "bad", Cell.str "FAIL"]] }).rows,
      cellNumOrMissing (r.getD (List.indexOf "auroc" ["auroc", "status"]) Cell.missing))
    ∧ (∀ s, parseNum s = none → toNumericCell (Cell.str s) = Cell.missing)
    ∧ List.Pairwise (missingLastRel ["auroc", "status"])
        (processTable
          { cols := ["auroc", "status"],
            rows := [[Cell.str "0.95", Cell.str "OK"],
                     [Cell.str "bad", Cell.str "FAIL"]] }).rows :=
  numeric_coercion_and_missing_last
    { cols := ["auroc", "status"],
      rows := [[Cell.str "0.95", Cell.str "OK"], [Cell.str "bad", Cell.str "FAIL"]] }
    "auroc" (by decide) (by decide)

/-! ### The image renderer: truncation, title, formatting -/

theorem coerceCol_rows_length (t : Table) (c : String) :
    (coerceCol t c).rows.length = t.rows.length := by
  unfold coerceCol
  split <;> simp

theorem coerceMetrics_rows_length (t : Table) :
    (coerceMetrics t).rows.length = t.rows.length := by
  rw [coerceMetrics_eq, coerceCol_rows_length, coerceCol_rows_length, coerceCol_rows_length]

theorem processTable_rows_length (t : Table) :
    (processTable t).rows.length = t.rows.length := by
  unfold processTable
  rw [(sortTable_rows_perm _).length_eq, coerceMetrics_rows_length]

theorem renderLeaderboardImage_grid (t : Table) (m : Nat) (hr : t.rows ≠ []) (hc : t.cols ≠ []) :
    renderLeaderboardImage true t m
      = ImgRender.grid (gridCellsOf t m) t.cols (titleOf t m) := by
  unfold renderLeaderboardImage
  rw [if_neg (by simp), if_neg (by simp [List.isEmpty_iff, hr, hc])]

theorem imgRows_eq_take (t : Table) (m : Nat) (hm : 1 ≤ m) : imgRows t m = t.rows.take m := by
  unfold imgRows
  split
  · rfl
  · rename_i h
    simp only [Bool.and_eq_true, decide_eq_true_eq, not_and, not_lt] at h
    rw [List.take_of_length_le (h (by omega))]

theorem numFlags_getD (t : Table) (j : Nat) (hj : j < t.cols.length) :
    (numFlags t).getD j false = isNumericCol (colCells t j) := by
  unfold numFlags
  have hj' : j < ((List.range t.cols.length).map fun i => isNumericCol (colCells t i)).length := by
    simpa using hj
  rw [List.getD_eq_getElem _ _ hj', List.getElem_map, List.getElem_range]

theorem gridCellsOf_cell (t : Table) (m : Nat) (i j : Nat)
    (hi : i < (imgRows t m).length) (hj : j < t.cols.length) :
    ((gridCellsOf t m).getD i []).getD j "" =
      renderCell (isNumericCol (colCells t j))
        (((imgRows t m).getD i []).getD j Cell.missing) := by
  unfold gridCellsOf
  have hi' : i < ((imgRows t m).map (fmtRow t)).length := by simpa using hi
  rw [List.getD_eq_getElem _ _ hi', List.getElem_map]
  unfold fmtRow
  have hj' : j < ((List.range t.cols.length).map fun k =>
      renderCell ((numFlags t).getD k false) (((imgRows t m)[i]).getD k Cell.missing)).length := by
    simpa using hj
  rw [List.getD_eq_getElem _ _ hj', List.getElem_map, List.getElem_range, numFlags_getD t j hj,
    List.getD_eq_getElem (imgRows t m) [] hi]

/-- Counterexample to C3 as stated: with the cap configured to 0, the
code's `max_rows and len(df_sorted) > max_rows` treats the cap as falsy —
the one-row table renders one row, exceeding the cap of 0, and the title
carries no truncation note although the table has more rows than the
cap. -/
theorem row_cap_zero_unbounded :
    ¬ ((renderLeaderboardImage true { cols := ["auroc"], rows := [[Cell.num (mkRat 1 1)]] }
        0).gridCells.length ≤ 0)
    ∧ (renderLeaderboardImage true { cols := ["auroc"], rows := [[Cell.num (mkRat 1 1)]] }
        0).imgTitle = "Readmit30 Leaderboard" :=
  ⟨by decide, by decide⟩

/-- Claim C3 (amended): for every non-empty sorted table and every
positive configured `max_rows`, the image renderer renders at most
`max_rows` rows — the leading rows of the established sort order — the
image title carries the `"Top {max_rows} of {total}"` note exactly when
the table has more rows than `max_rows`, and the HTML path renders all
rows regardless of the cap. -/
theorem image_truncation_and_title (t : Table) (m : Nat) (hm : 1 ≤ m)
    (hr : t.rows ≠ []) (hc : t.cols ≠ []) :
    (renderLeaderboardImage true t m).gridCells.length = min m t.rows.length
    ∧ (renderLeaderboardImage true t m).gridCells = (t.rows.take m).map (fmtRow t)
    ∧ ((∃ p q, (renderLeaderboardImage true t m).imgTitle
        = p ++ topNote m t.rows.length ++ q) ↔ m < t.rows.length)
    ∧ (htmlTransform (processTable t)).rows.length = t.rows.length := by
  rw [renderLeaderboardImage_grid t m hr hc]
  refine ⟨?_, ?_, ?_, ?_⟩
  · show (gridCellsOf t m).length = _
    unfold gridCellsOf
    rw [List.length_map, imgRows_eq_take t m hm, List.length_take]
  · show gridCellsOf t m = _
    unfold gridCellsOf
    rw [imgRows_eq_take t m hm]
  · show (∃ p q, titleOf t m = _) ↔ _
    unfold titleOf
    by_cases hlt : t.rows.length > m
    · rw [if_pos (by simp [hlt]; omega)]
      exact ⟨fun _ => hlt, fun _ => ⟨"Readmit30 Leaderboard", "", by rw [String.append_empty]⟩⟩
    · rw [if_neg (by simp [hlt]), String.append_empty]
      constructor
      · rintro ⟨p, q, hpq⟩
        exfalso
        have hmem : '(' ∈ (p ++ topNote m t.rows.length ++ q).data := by
          simp only [String.data_append]
          refine List.mem_append.mpr (Or.inl (List.mem_append.mpr (Or.inr ?_)))
          simp only [topNote, String.data_append]
          refine List.mem_append.mpr (Or.inl (List.mem_append.mpr (Or.inl
            (List.mem_append.mpr (Or.inl (List.mem_append.mpr (Or.inl ?_)))))))
          decide
        rw [← hpq] at hmem
        exact absurd hmem (by decide)
      · intro hlt2
        exact absurd hlt2 hlt
  · rw [htmlTransform_rows_length, processTable_rows_length]

/-- Witness for C3 (amended) at a two-row table with a cap of 1. -/
theorem image_truncation_and_title_witness :
    (renderLeaderboardImage true
        { cols := ["auroc"],
          rows := [[Cell.num (mkRat 1 1)], [Cell.num (mkRat 1 2)]] } 1).gridCells.length
      = min 1 ([[Cell.num (mkRat 1 1)], [Cell.num (mkRat 1 2)]] : List (List Cell)).length
    ∧ (renderLeaderboardImage true
        { cols := ["auroc"],
          rows := [[Cell.num (mkRat 1 1)], [Cell.num (mkRat 1 2)]] } 1).gridCells
      = (([[Cell.num (mkRat 1 1)], [Cell.num (mkRat 1 2)]] : List (List Cell)).take 1).map
          (fmtRow { cols := ["auroc"], rows := [[Cell.num (mkRat 1 1)], [Cell.num (mkRat 1 2)]] })
    ∧ ((∃ p q, (renderLeaderboardImage true
        { cols := ["auroc"],
          rows := [[Cell.num (mkRat 1 1)], [Cell.num (mkRat 1 2)]] } 1).imgTitle
        = p ++ topNote 1 ([[Cell.num (mkRat 1 1)], [Cell.num (mkRat 1 2)]] : List (List Cell)).length ++ q)
        ↔ 1 < ([[Cell.num (mkRat 1 1)], [Cell.num (mkRat 1 2)]] : List (List Cell)).length)
    ∧ (htmlTransform (processTable
        { cols := ["auroc"],
          rows := [[Cell.num (mkRat 1 1)], [Cell.num (mkRat 1 2)]] })).rows.length
      = ([[Cell.num (mkRat 1 1)], [Cell.num (mkRat 1 2)]] : List (List Cell)).length :=
  image_truncation_and_title
    { cols := ["auroc"], rows := [[Cell.num (mkRat 1 1)], [Cell.num (mkRat 1 2)]] }
    1 (by decide) (by decide) (by decide)

theorem fmt4_shape (q : ℚ) :
    ∃ a b, fmt4 q = a ++ "." ++ b ∧ b.length = 4 ∧ '.' ∉ b.data := by
  refine ⟨(if round4 q < 0 then "-" else "") ++ toString ((round4 q).natAbs / 10000),
    String.mk [Nat.digitChar ((round4 q).natAbs / 1000 % 10),
      Nat.digitChar ((round4 q).natAbs / 100 % 10),
      Nat.digitChar ((round4 q).natAbs / 10 % 10),
      Nat.digitChar ((round4 q).natAbs % 10)], rfl, rfl, ?_⟩
  have hd : ∀ n : Nat, n < 10 → Nat.digitChar n ≠ '.' := by decide
  intro hmem
  rcases List.mem_cons.mp hmem with h | hmem
  · exact hd _ (Nat.mod_lt _ (by norm_num)) h.symm
  rcases List.mem_cons.mp hmem with h | hmem
  · exact hd _ (Nat.mod_lt _ (by norm_num)) h.symm
  rcases List.mem_cons.mp hmem with h | hmem
  · exact hd _ (Nat.mod_lt _ (by norm_num)) h.symm
  rcases List.mem_cons.mp hmem with h | hmem
  · exact hd _ (Nat.mod_lt _ (by norm_num)) h.symm
  exact absurd hmem (List.not_mem_nil _)

/-- Claim C8: on the (possibly truncated) image rows, every cell of a
numeric-dtype column is formatted as text — a missing value as empty
text, a number to exactly four decimal places (a final `"."` followed by
exactly four non-dot characters). -/
theorem image_numeric_formatting (t : Table) (m : Nat) (hr : t.rows ≠ []) (hc : t.cols ≠ [])
    (j : Nat) (hj : j < t.cols.length) (hnum : isNumericCol (colCells t j) = true)
    (i : Nat) (hi : i < (imgRows t m).length) :
    (((imgRows t m).getD i []).getD j Cell.missing = Cell.missing →
      ((renderLeaderboardImage true t m).gridCells.getD i []).getD j "" = "")
    ∧ (∀ q, ((imgRows t m).getD i []).getD j Cell.missing = Cell.num q →
        ((renderLeaderboardImage true t m).gridCells.getD i []).getD j "" = fmt4 q
        ∧ ∃ a b, fmt4 q = a ++ "." ++ b ∧ b.length = 4 ∧ '.' ∉ b.data) := by
  rw [renderLeaderboardImage_grid t m hr hc]
  constructor
  · intro hmiss
    show ((gridCellsOf t m).getD i []).getD j "" = ""
    rw [gridCellsOf_cell t m i j hi hj, hmiss, hnum]
    rfl
  · intro q hq
    refine ⟨?_, fmt4_shape q⟩
    show ((gridCellsOf t m).getD i []).getD j "" = fmt4 q
    rw [gridCellsOf_cell t m i j hi hj, hq, hnum]
    rfl

/-- Witness for C8 at a one-column numeric table holding a value and a
missing cell. -/
theorem image_numeric_formatting_witness :
    ((renderLeaderboardImage true
        { cols := ["auroc"], rows := [[Cell.num (mkRat 9 10)], [Cell.missing]] }
        25).gridCells.getD 1 []).getD 0 "" = ""
    ∧ ((renderLeaderboardImage true
        { cols := ["auroc"], rows := [[Cell.num (mkRat 9 10)], [Cell.missing]] }
        25).gridCells.getD 0 []).getD 0 "" = fmt4 (mkRat 9 10) :=
  ⟨(image_numeric_formatting
      { cols := ["auroc"], rows := [[Cell.num (mkRat 9 10)], [Cell.missing]] }
      25 (by decide) (by decide) 0 (by decide) (by decide) 1 (by decide)).1 (by decide),
   ((image_numeric_formatting
      { cols := ["auroc"], rows := [[Cell.num (mkRat 9 10)], [Cell.missing]] }
      25 (by decide) (by decide) 0 (by decide) (by decide) 0 (by decide)).2
      (mkRat 9 10) (by decide)).1⟩

/-- Claim C10: the empty-text treatment of missing values applies only to
numeric-dtype columns — in a column that is not numeric-typed, a missing
value renders as the literal text `"nan"` (via `astype(str)`), not as
empty text. -/
theorem non_numeric_missing_renders_nan (t : Table) (m : Nat) (hr : t.rows ≠ [])
    (hc : t.cols ≠ []) (j : Nat) (hj : j < t.cols.length)
    (hflag : isNumericCol (colCells t j) = false) (i : Nat) (hi : i < (imgRows t m).length)
    (hmiss : ((imgRows t m).getD i []).getD j Cell.missing = Cell.missing) :
    ((renderLeaderboardImage true t m).gridCells.getD i []).getD j "" = "nan"
    ∧ "nan" ≠ "" := by
  rw [renderLeaderboardImage_grid t m hr hc]
  refine ⟨?_, by decide⟩
  show ((gridCellsOf t m).getD i []).getD j "" = "nan"
  rw [gridCellsOf_cell t m i j hi hj, hmiss, hflag]
  rfl

/-- Witness for C10 at a status column with a missing cell. -/
theorem non_numeric_missing_renders_nan_witness :
    ((renderLeaderboardImage true
        { cols := ["status"], rows := [[Cell.str "x"], [Cell.missing]] }
        25).gridCells.getD 1 []).getD 0 "" = "nan"
    ∧ "nan" ≠ "" :=
  non_numeric_missing_renders_nan
    { cols := ["status"], rows := [[Cell.str "x"], [Cell.missing]] }
    25 (by decide) (by decide) 0 (by decide) (by decide) 1 (by decide) (by decide)

/-- Witness for C7 at a table with only non-metric columns. -/
theorem no_metric_columns_identity_witness :
    processTable { cols := ["team", "status"], rows := [[Cell.str "a", Cell.str "OK"]] }
      = { cols := ["team", "status"], rows := [[Cell.str "a", Cell.str "OK"]] } :=
  no_metric_columns_identity
    { cols := ["team", "status"], rows := [[Cell.str "a", Cell.str "OK"]] }
    (by decide) (by decide) (by decide)

end MakeSite
